import Mathlib

/-!
Shallow embedding of the LoongArch relocation backend
(src/elf/arch-loongarch.cc) and proofs about it.

Machine integers are represented as natural numbers holding the bit
pattern; every C u64 operation wraps modulo 2 ^ 64, and i64 values are
read off a pattern through a two-complement conversion.  Byte buffers
are lists of byte values; instruction words are read and written
little-endian.
-/

namespace Mold

/-- Value of a C u64 expression: wraparound modulo 2 ^ 64. -/
def u64 (x : Nat) : Nat := x % 2 ^ 64

/-- Value of a C u32 conversion: truncation modulo 2 ^ 32. -/
def u32 (x : Nat) : Nat := x % 2 ^ 32

/-- Two-complement u64 subtraction a - b on bit patterns. -/
def sub64 (a b : Nat) : Nat := (a + (2 ^ 64 - b % 2 ^ 64)) % 2 ^ 64

/-- Signed reading of a u64 bit pattern, the value of a C i64 cast. -/
def toI64 (x : Nat) : Int :=
  if x % 2 ^ 64 < 2 ^ 63 then (x % 2 ^ 64 : Int) else (x % 2 ^ 64 : Int) - 2 ^ 64

/-- Truncation of a C i64 value to u32 (two-complement). -/
def intToU32 (i : Int) : Nat := (i % 2 ^ 32).toNat

/-- Bitwise and against a shifted mask, pushed through the shift. -/
theorem and_shl (x m k : Nat) : x &&& (m <<< k) = ((x >>> k) &&& m) <<< k := by
  apply Nat.eq_of_testBit_eq
  intro i
  rcases Nat.lt_or_ge i k with h | h
  · simp [Nat.testBit_shiftLeft, Nat.not_le.mpr h]
  · simp [Nat.testBit_shiftLeft, Nat.testBit_shiftRight, h, Nat.add_sub_cancel' h]

/-- page(x) clears the low 12 bits (arch-loongarch.cc, page). -/
def page (val : Nat) : Nat := val &&& 0xfffffffffffff000

/-- Arithmetic characterization of page. -/
theorem page_eq (x : Nat) : page x = x / 2 ^ 12 % 2 ^ 52 * 2 ^ 12 := by
  have hm : (0xfffffffffffff000 : Nat) = (2 ^ 52 - 1) <<< 12 := by
    norm_num [Nat.shiftLeft_eq]
  rw [page, hm, and_shl, Nat.and_pow_two_sub_one_eq_mod, Nat.shiftLeft_eq,
    Nat.shiftRight_eq_div_pow]

/-- Characterization of page below 2 ^ 64. -/
theorem page_eq_of_lt {x : Nat} (h : x < 2 ^ 64) : page x = x / 2 ^ 12 * 2 ^ 12 := by
  rw [page_eq]
  have : x / 2 ^ 12 < 2 ^ 52 := by omega
  rw [Nat.mod_eq_of_lt this]

/-- mid20: hi20 part of a pcalau12i/addi pair (arch-loongarch.cc, mid20). -/
def mid20 (val pc : Nat) : Nat := sub64 (page (u64 (val + 0x800))) (page pc)

/-- alau64_hi32: correction term of a 4-instruction 64-bit absolute-PC
sequence (arch-loongarch.cc, alau64_hi32); computed on i64 bit patterns. -/
def alau64_hi32 (val pc : Nat) : Nat :=
  sub64 (sub64 val (u64 ((val &&& 0x800) <<< 21))) (pc &&& 0xffffffff00000000)

/-- write_j20: patch the 20-bit immediate field at bit offset 5. -/
def write_j20 (ins val : Nat) : Nat :=
  (ins &&& 0b11111110000000000000000000011111) ||| ((val &&& 0xfffff) <<< 5)

/-- write_k12: patch the 12-bit immediate field at bit offset 10. -/
def write_k12 (ins val : Nat) : Nat :=
  (ins &&& 0b11111111111100000000001111111111) ||| ((val &&& 0xfff) <<< 10)

/-- write_d5k16: patch a 21-bit immediate split as low-16 at offset 10
and high-5 at offset 0. -/
def write_d5k16 (ins val : Nat) : Nat :=
  let hi := val >>> 16
  (ins &&& 0b11111100000000000000001111100000) |||
    (((val &&& 0xffff) <<< 10) ||| (hi &&& 0x1f))

/-- write_d10k16: patch a 26-bit immediate split as low-16 at offset 10
and high-10 at offset 0. -/
def write_d10k16 (ins val : Nat) : Nat :=
  let hi := val >>> 16
  (ins &&& 0b11111100000000000000000000000000) |||
    (((val &&& 0xffff) <<< 10) ||| (hi &&& 0x3ff))

/-- write_k16: patch the plain 16-bit immediate field at offset 10. -/
def write_k16 (ins val : Nat) : Nat :=
  (ins &&& 0b11111100000000000000001111111111) ||| ((val &&& 0xffff) <<< 10)

/-- Sign-extension of a 12-bit immediate to a u64 bit pattern, as used in
the decoding formula of the claims. -/
def sext12 (lo : Nat) : Nat := if lo < 0x800 then lo else lo + (2 ^ 64 - 0x1000)

/-- Decoding of the two-instruction materialization sequence as stated in
the claims: (page(pc) + (mid20(target,pc) >> 12 << 12)) + sign_extend12
of the low 12 bits of target, on u64 bit patterns. -/
def decodePcala (target pc : Nat) : Nat :=
  u64 (page pc + ((mid20 target pc >>> 12) <<< 12) + sext12 (target &&& 0xfff))

/-- C9: mid20(val, pc) always has its low 12 bits clear, so the right
shift by 12 before encoding into the 20-bit field discards nothing. -/
theorem mid20_low12_zero (val pc : Nat) :
    mid20 val pc % 0x1000 = 0 ∧ (mid20 val pc >>> 12) <<< 12 = mid20 val pc := by
  have h1 := page_eq (u64 (val + 0x800))
  have h2 := page_eq pc
  have hlt1 : page (u64 (val + 0x800)) < 2 ^ 64 := by
    rw [h1]; have := Nat.mod_lt ((u64 (val + 0x800)) / 2 ^ 12) (show 0 < 2 ^ 52 by norm_num); omega
  have hlt2 : page pc < 2 ^ 64 := by
    rw [h2]; have := Nat.mod_lt (pc / 2 ^ 12) (show 0 < 2 ^ 52 by norm_num); omega
  unfold mid20 sub64
  rw [Nat.shiftRight_eq_div_pow, Nat.shiftLeft_eq]
  omega

/-- C1: for every pc and target (with the pc-relative distance in the
checked range), decoding the hi20/lo12 pair reconstructs the target. -/
theorem pcala_roundtrip (target pc : Nat) (ht : target < 2 ^ 64) (hp : pc < 2 ^ 64)
    (hrange : sub64 target pc < 2 ^ 31 ∨ 2 ^ 64 - 2 ^ 31 ≤ sub64 target pc) :
    decodePcala target pc = target := by
  clear hrange
  have h1 := page_eq_of_lt (show u64 (target + 0x800) < 2 ^ 64 by unfold u64; omega)
  have h2 := page_eq_of_lt hp
  have h3 : target &&& 0xfff = target % 2 ^ 12 := by
    have := Nat.and_pow_two_sub_one_eq_mod target 12
    norm_num at this
    exact this
  simp only [u64] at h1
  unfold decodePcala mid20 sub64 u64 sext12
  rw [Nat.shiftRight_eq_div_pow, Nat.shiftLeft_eq, h1, h2, h3]
  split <;> omega

/-- Closed witness for the C1 round-trip theorem. -/
theorem pcala_roundtrip_witness :
    (0x12345888 : Nat) < 2 ^ 64 ∧ (0x1000 : Nat) < 2 ^ 64 ∧
      (sub64 0x12345888 0x1000 < 2 ^ 31 ∨ 2 ^ 64 - 2 ^ 31 ≤ sub64 0x12345888 0x1000) ∧
      decodePcala 0x12345888 0x1000 = 0x12345888 := by
  refine ⟨by norm_num, by norm_num, Or.inl (by decide), ?_⟩
  exact pcala_roundtrip 0x12345888 0x1000 (by norm_num) (by norm_num)
    (Or.inl (by decide))

/-- Little-endian read of n bytes starting at a byte offset (bytes
outside the buffer read as 0). -/
def readLE (buf : List Nat) (off n : Nat) : Nat :=
  match n with
  | 0 => 0
  | m + 1 => buf.getD off 0 + 256 * readLE buf (off + 1) m

/-- Little-endian store of the low n bytes of val at a byte offset. -/
def writeLE (buf : List Nat) (off n val : Nat) : List Nat :=
  match n with
  | 0 => buf
  | m + 1 => writeLE (buf.set off (val % 256)) (off + 1) m (val / 256)

/-- Diagnostic classes; Error(ctx) in the source records a recoverable
diagnostic and processing continues, Fatal(ctx) is unrecoverable. -/
inductive Err
  | align
  | range
  | undef
  | unknown
  | overflow
  | tlsle
  | unreachable
  | fatal
deriving DecidableEq

/-- Relocation kinds dispatched by this backend. -/
inductive RelType
  | R_NONE
  | R_LARCH_32
  | R_LARCH_64
  | R_LARCH_B16
  | R_LARCH_B21
  | R_LARCH_B26
  | R_LARCH_ABS_HI20
  | R_LARCH_ABS_LO12
  | R_LARCH_ABS64_LO20
  | R_LARCH_ABS64_HI12
  | R_LARCH_PCALA_HI20
  | R_LARCH_PCALA_LO12
  | R_LARCH_PCALA64_LO20
  | R_LARCH_PCALA64_HI12
  | R_LARCH_GOT_PC_HI20
  | R_LARCH_GOT_PC_LO12
  | R_LARCH_GOT64_PC_LO20
  | R_LARCH_GOT64_PC_HI12
  | R_LARCH_GOT_HI20
  | R_LARCH_GOT_LO12
  | R_LARCH_GOT64_LO20
  | R_LARCH_GOT64_HI12
  | R_LARCH_TLS_LE_HI20
  | R_LARCH_TLS_LE_LO12
  | R_LARCH_TLS_LE64_LO20
  | R_LARCH_TLS_LE64_HI12
  | R_LARCH_TLS_IE_PC_HI20
  | R_LARCH_TLS_IE_PC_LO12
  | R_LARCH_TLS_IE64_PC_LO20
  | R_LARCH_TLS_IE64_PC_HI12
  | R_LARCH_TLS_IE_HI20
  | R_LARCH_TLS_IE_LO12
  | R_LARCH_TLS_IE64_LO20
  | R_LARCH_TLS_IE64_HI12
  | R_LARCH_TLS_LD_PC_HI20
  | R_LARCH_TLS_GD_PC_HI20
  | R_LARCH_TLS_LD_HI20
  | R_LARCH_TLS_GD_HI20
  | R_LARCH_ADD6
  | R_LARCH_ADD8
  | R_LARCH_ADD16
  | R_LARCH_ADD32
  | R_LARCH_ADD64
  | R_LARCH_SUB6
  | R_LARCH_SUB8
  | R_LARCH_SUB16
  | R_LARCH_SUB32
  | R_LARCH_SUB64
  | R_LARCH_32_PCREL
  | R_LARCH_64_PCREL
  | R_LARCH_ADD_ULEB128
  | R_LARCH_SUB_ULEB128
  | R_LARCH_TLS_DTPREL32
  | R_LARCH_TLS_DTPREL64
  | R_LARCH_RELAX
  | R_LARCH_MARK_LA
  | R_LARCH_MARK_PCREL
deriving DecidableEq

/-- Requirement-flag bit for a GOT slot.  Modelled from the spec: the
bitset values live outside src; only distinct bits matter. -/
def NEEDS_GOT : Nat := 1

/-- Requirement-flag bit for a PLT stub. -/
def NEEDS_PLT : Nat := 2

/-- Requirement-flag bit for a GOT-resident thread-pointer slot. -/
def NEEDS_GOTTP : Nat := 4

/-- Requirement-flag bit for a TLS general/local-dynamic block. -/
def NEEDS_TLSGD : Nat := 8

/-- Symbol view consumed by this backend: resolved address, slot lookups
and flags supplied by the external symbol resolver, plus the oracles for
the external undefined-symbol reporter (undef), fragment resolver (frag)
and tombstone resolver (tombstone), which live outside src and are
modelled from the spec as per-symbol inputs. -/
structure Symbol where
  addr : Nat
  got_idx : Nat
  tlsgd_idx : Nat
  has_tlsgd : Bool
  gottp_addr : Nat
  tlsgd_addr : Nat
  got_addr : Nat
  gotplt_addr : Nat
  plt_addr : Nat
  is_ifunc : Bool
  is_imported : Bool
  hasFile : Bool
  undef : Bool
  tombstone : Option Nat
  frag : Option (Nat × Nat)
  flags : Nat
deriving DecidableEq

instance : Inhabited Symbol :=
  ⟨⟨0, 0, 0, false, 0, 0, 0, 0, 0, false, false, false, false, none, none, 0⟩⟩

/-- Link-wide context: section base addresses and TLS biases, plus the
spec-modelled external collaborators (scan_absrel, scan_dyn_absrel,
scan_pcrel as the flag sets they OR into a symbol, check_tlsle as an
error bit, apply_dyn_absrel as a buffer transformer). -/
structure Context where
  is64 : Bool
  got_addr : Nat
  gotplt_addr : Nat
  plt_addr : Nat
  tp_addr : Nat
  dtp_addr : Nat
  scan_absrel_flags : Nat
  scan_dyn_absrel_flags : Nat
  scan_pcrel_flags : Nat
  tlsle_err : Bool
  dyn_absrel : Nat → List Nat → List Nat

/-- Relocation record as read from the input (the symbol-table index is
kept as an index into a symbol list; the addend is the u64 bit pattern of
the signed addend). -/
structure Rel where
  r_type : RelType
  r_offset : Nat
  r_sym : Nat
  r_addend : Nat
deriving DecidableEq

/-- Modelled from the spec: get_tombstone, the external tombstone
resolver; yields an override value when the referenced symbol belongs to
a section discarded by dead-section elimination (never for a live merged
fragment). -/
def get_tombstone (sym : Symbol) (frag : Option (Nat × Nat)) : Option Nat :=
  match frag with
  | some _ => none
  | none => sym.tombstone

/-- Modelled from the spec: read_uleb, the external ULEB128 decoder at
the patch site. -/
def read_uleb : List Nat → Nat
  | [] => 0
  | b :: rest =>
    if b &&& 0x80 ≠ 0 then (b &&& 0x7f) + 128 * read_uleb rest else b &&& 0x7f

/-- Modelled from the spec: overwrite_uleb, re-encoding in place in the
same number of bytes as originally emitted (following the existing
continuation bits). -/
def overwrite_uleb : List Nat → Nat → List Nat
  | [], _ => []
  | b :: rest, v =>
    if b &&& 0x80 ≠ 0 then (0x80 ||| (v &&& 0x7f)) :: overwrite_uleb rest (v >>> 7)
    else (v &&& 0x7f) :: rest

/-- Splice an in-place ULEB128 rewrite at a byte offset. -/
def patchULEB (buf : List Nat) (off v : Nat) : List Nat :=
  buf.take off ++ overwrite_uleb (buf.drop off) v

/-- Range check of apply_reloc_alloc (the check lambda): a range
diagnostic exactly when val is outside the signed interval. -/
def checkE (val lo hi : Int) : List Err :=
  if val < lo ∨ hi ≤ val then [Err.range] else []

/-- check_branch lambda: an alignment diagnostic when the low 2 bits of
val are set (tested on the bit pattern, which on two-complement i64
values agrees with the test in the source), then the range check. -/
def check_branch (pat : Nat) (lo hi : Int) : List Err :=
  (if pat &&& 0b11 ≠ 0 then [Err.align] else []) ++ checkE (toI64 pat) lo hi

/-- Kinds skipped without any effect by the scanner and the
allocated-section applier. -/
def skipKind (t : RelType) : Bool :=
  match t with
  | RelType.R_NONE | RelType.R_LARCH_RELAX
  | RelType.R_LARCH_MARK_LA | RelType.R_LARCH_MARK_PCREL => true
  | _ => false

/-- One iteration of the relocation loop of
InputSection::apply_reloc_alloc (arch-loongarch.cc lines 229-432):
the updated buffer and the diagnostics recorded for this relocation.
Error(ctx) does not alter control flow, so a failed check still falls
through to the write that follows it in the source. -/
def applyAllocStep (ctx : Context) (secAddr : Nat) (syms : List Symbol)
    (buf : List Nat) (rel : Rel) : List Nat × List Err :=
  if skipKind rel.r_type then (buf, [])
  else
    let sym := syms.getD rel.r_sym default
    let off := rel.r_offset
    let S := sym.addr
    let A := rel.r_addend
    let P := u64 (secAddr + rel.r_offset)
    let G := u64 ((if sym.has_tlsgd then sym.tlsgd_idx else sym.got_idx) *
      (if ctx.is64 then 8 else 4))
    let GOT := ctx.got_addr
    match rel.r_type with
    | RelType.R_LARCH_32 =>
      if ctx.is64 then (writeLE buf off 4 (u64 (S + A)), [])
      else (ctx.dyn_absrel off buf, [])
    | RelType.R_LARCH_64 => (ctx.dyn_absrel off buf, [])
    | RelType.R_LARCH_B16 =>
      (writeLE buf off 4 (write_k16 (readLE buf off 4) (u32 (sub64 (S + A) P >>> 2))),
        check_branch (sub64 (S + A) P) (-(2 ^ 17)) (2 ^ 17))
    | RelType.R_LARCH_B21 =>
      (writeLE buf off 4 (write_d5k16 (readLE buf off 4) (u32 (sub64 (S + A) P >>> 2))),
        check_branch (sub64 (S + A) P) (-(2 ^ 22)) (2 ^ 22))
    | RelType.R_LARCH_B26 =>
      (writeLE buf off 4 (write_d10k16 (readLE buf off 4) (u32 (sub64 (S + A) P >>> 2))),
        check_branch (sub64 (S + A) P) (-(2 ^ 27)) (2 ^ 27))
    | RelType.R_LARCH_ABS_HI20 =>
      (writeLE buf off 4 (write_j20 (readLE buf off 4) (u32 (u64 (S + A) >>> 12))), [])
    | RelType.R_LARCH_ABS_LO12 =>
      (writeLE buf off 4 (write_k12 (readLE buf off 4) (u32 (S + A))), [])
    | RelType.R_LARCH_ABS64_LO20 =>
      (writeLE buf off 4 (write_j20 (readLE buf off 4) (u32 (u64 (S + A) >>> 32))), [])
    | RelType.R_LARCH_ABS64_HI12 =>
      (writeLE buf off 4 (write_k12 (readLE buf off 4) (u32 (u64 (S + A) >>> 52))), [])
    | RelType.R_LARCH_PCALA_HI20 =>
      let v := mid20 (u64 (S + A)) P
      (writeLE buf off 4 (write_j20 (readLE buf off 4) (intToU32 (toI64 v >>> 12))),
        checkE (toI64 v) (-(2 ^ 31)) (2 ^ 31))
    | RelType.R_LARCH_PCALA_LO12 =>
      (writeLE buf off 4 (write_k12 (readLE buf off 4) (u32 (S + A))), [])
    | RelType.R_LARCH_PCALA64_LO20 =>
      (writeLE buf off 4 (write_j20 (readLE buf off 4)
        (intToU32 (toI64 (alau64_hi32 (u64 (S + A)) P) >>> 32))), [])
    | RelType.R_LARCH_PCALA64_HI12 =>
      (writeLE buf off 4 (write_k12 (readLE buf off 4)
        (intToU32 (toI64 (alau64_hi32 (u64 (S + A)) P) >>> 52))), [])
    | RelType.R_LARCH_GOT_PC_HI20 =>
      let v := mid20 (u64 (GOT + G + A)) P
      (writeLE buf off 4 (write_j20 (readLE buf off 4) (intToU32 (toI64 v >>> 12))),
        checkE (toI64 v) (-(2 ^ 31)) (2 ^ 31))
    | RelType.R_LARCH_GOT_PC_LO12 =>
      (writeLE buf off 4 (write_k12 (readLE buf off 4) (u32 (GOT + G + A))), [])
    | RelType.R_LARCH_GOT64_PC_LO20 =>
      (writeLE buf off 4 (write_j20 (readLE buf off 4)
        (intToU32 (toI64 (alau64_hi32 (u64 (GOT + G + A)) P) >>> 32))), [])
    | RelType.R_LARCH_GOT64_PC_HI12 =>
      (writeLE buf off 4 (write_k12 (readLE buf off 4)
        (intToU32 (toI64 (alau64_hi32 (u64 (GOT + G + A)) P) >>> 52))), [])
    | RelType.R_LARCH_GOT_HI20 =>
      (writeLE buf off 4 (write_j20 (readLE buf off 4) (u32 (u64 (GOT + G + A) >>> 12))), [])
    | RelType.R_LARCH_GOT_LO12 =>
      (writeLE buf off 4 (write_k12 (readLE buf off 4) (u32 (GOT + G + A))), [])
    | RelType.R_LARCH_GOT64_LO20 =>
      (writeLE buf off 4 (write_j20 (readLE buf off 4) (u32 (u64 (GOT + G + A) >>> 32))), [])
    | RelType.R_LARCH_GOT64_HI12 =>
      (writeLE buf off 4 (write_k12 (readLE buf off 4) (u32 (u64 (GOT + G + A) >>> 52))), [])
    | RelType.R_LARCH_TLS_LE_HI20 =>
      (writeLE buf off 4 (write_j20 (readLE buf off 4)
        (u32 (sub64 (S + A) ctx.tp_addr >>> 12))), [])
    | RelType.R_LARCH_TLS_LE_LO12 =>
      (writeLE buf off 4 (write_k12 (readLE buf off 4) (u32 (sub64 (S + A) ctx.tp_addr))), [])
    | RelType.R_LARCH_TLS_LE64_LO20 =>
      (writeLE buf off 4 (write_j20 (readLE buf off 4)
        (u32 (sub64 (S + A) ctx.tp_addr >>> 32))), [])
    | RelType.R_LARCH_TLS_LE64_HI12 =>
      (writeLE buf off 4 (write_k12 (readLE buf off 4)
        (u32 (sub64 (S + A) ctx.tp_addr >>> 52))), [])
    | RelType.R_LARCH_TLS_IE_PC_HI20 =>
      let v := mid20 (u64 (sym.gottp_addr + A)) P
      (writeLE buf off 4 (write_j20 (readLE buf off 4) (intToU32 (toI64 v >>> 12))),
        checkE (toI64 v) (-(2 ^ 31)) (2 ^ 31))
    | RelType.R_LARCH_TLS_IE_PC_LO12 =>
      (writeLE buf off 4 (write_k12 (readLE buf off 4) (u32 (sym.gottp_addr + A))), [])
    | RelType.R_LARCH_TLS_IE64_PC_LO20 =>
      (writeLE buf off 4 (write_j20 (readLE buf off 4)
        (intToU32 (toI64 (alau64_hi32 (u64 (sym.gottp_addr + A)) P) >>> 32))), [])
    | RelType.R_LARCH_TLS_IE64_PC_HI12 =>
      (writeLE buf off 4 (write_k12 (readLE buf off 4)
        (intToU32 (toI64 (alau64_hi32 (u64 (sym.gottp_addr + A)) P) >>> 52))), [])
    | RelType.R_LARCH_TLS_IE_HI20 =>
      (writeLE buf off 4 (write_j20 (readLE buf off 4)
        (u32 (u64 (sym.gottp_addr + A) >>> 12))), [])
    | RelType.R_LARCH_TLS_IE_LO12 =>
      (writeLE buf off 4 (write_k12 (readLE buf off 4) (u32 (sym.gottp_addr + A))), [])
    | RelType.R_LARCH_TLS_IE64_LO20 =>
      (writeLE buf off 4 (write_j20 (readLE buf off 4)
        (u32 (u64 (sym.gottp_addr + A) >>> 32))), [])
    | RelType.R_LARCH_TLS_IE64_HI12 =>
      (writeLE buf off 4 (write_k12 (readLE buf off 4)
        (u32 (u64 (sym.gottp_addr + A) >>> 52))), [])
    | RelType.R_LARCH_TLS_LD_PC_HI20 | RelType.R_LARCH_TLS_GD_PC_HI20 =>
      let v := mid20 (u64 (sym.tlsgd_addr + A)) P
      (writeLE buf off 4 (write_j20 (readLE buf off 4) (intToU32 (toI64 v >>> 12))),
        checkE (toI64 v) (-(2 ^ 31)) (2 ^ 31))
    | RelType.R_LARCH_TLS_LD_HI20 | RelType.R_LARCH_TLS_GD_HI20 =>
      (writeLE buf off 4 (write_j20 (readLE buf off 4)
        (u32 (u64 (sym.tlsgd_addr + A) >>> 12))), [])
    | RelType.R_LARCH_ADD6 =>
      let b := buf.getD off 0
      (buf.set off ((b &&& 0b11000000) ||| (u64 (b + S + A) &&& 0b00111111)), [])
    | RelType.R_LARCH_ADD8 =>
      (writeLE buf off 1 (readLE buf off 1 + S + A), [])
    | RelType.R_LARCH_ADD16 =>
      (writeLE buf off 2 (readLE buf off 2 + S + A), [])
    | RelType.R_LARCH_ADD32 =>
      (writeLE buf off 4 (readLE buf off 4 + S + A), [])
    | RelType.R_LARCH_ADD64 =>
      (writeLE buf off 8 (readLE buf off 8 + S + A), [])
    | RelType.R_LARCH_SUB6 =>
      let b := buf.getD off 0
      (buf.set off ((b &&& 0b11000000) ||| (sub64 (sub64 b S) A &&& 0b00111111)), [])
    | RelType.R_LARCH_SUB8 =>
      (writeLE buf off 1 (sub64 (sub64 (readLE buf off 1) S) A), [])
    | RelType.R_LARCH_SUB16 =>
      (writeLE buf off 2 (sub64 (sub64 (readLE buf off 2) S) A), [])
    | RelType.R_LARCH_SUB32 =>
      (writeLE buf off 4 (sub64 (sub64 (readLE buf off 4) S) A), [])
    | RelType.R_LARCH_SUB64 =>
      (writeLE buf off 8 (sub64 (sub64 (readLE buf off 8) S) A), [])
    | RelType.R_LARCH_32_PCREL =>
      (writeLE buf off 4 (sub64 (S + A) P), [])
    | RelType.R_LARCH_64_PCREL =>
      (writeLE buf off 8 (sub64 (S + A) P), [])
    | RelType.R_LARCH_ADD_ULEB128 =>
      (patchULEB buf off (u64 (read_uleb (buf.drop off) + S + A)), [])
    | RelType.R_LARCH_SUB_ULEB128 =>
      (patchULEB buf off (sub64 (sub64 (read_uleb (buf.drop off)) S) A), [])
    | _ => (buf, [Err.unreachable])

/-- One iteration of InputSection::apply_reloc_nonalloc (lines 439-523);
a symbol with no owning file records an undefined-symbol diagnostic and
the relocation is skipped, an unsupported kind is a fatal diagnostic. -/
def applyNonallocStep (ctx : Context) (syms : List Symbol) (buf : List Nat)
    (rel : Rel) : List Nat × List Err :=
  if rel.r_type = RelType.R_NONE then (buf, [])
  else
    let sym := syms.getD rel.r_sym default
    let off := rel.r_offset
    if ¬ sym.hasFile then (buf, [Err.undef])
    else
      let frag := sym.frag
      let S := match frag with | some f => f.fst | none => sym.addr
      let A := match frag with | some f => f.snd | none => rel.r_addend
      match rel.r_type with
      | RelType.R_LARCH_32 =>
        (writeLE buf off 4 (u64 (S + A)), [])
      | RelType.R_LARCH_64 =>
        match get_tombstone sym frag with
        | some v => (writeLE buf off 8 v, [])
        | none => (writeLE buf off 8 (u64 (S + A)), [])
      | RelType.R_LARCH_ADD6 =>
        let b := buf.getD off 0
        (buf.set off ((b &&& 0b11000000) ||| (u64 (b + S + A) &&& 0b00111111)), [])
      | RelType.R_LARCH_ADD8 =>
        (writeLE buf off 1 (readLE buf off 1 + S + A), [])
      | RelType.R_LARCH_ADD16 =>
        (writeLE buf off 2 (readLE buf off 2 + S + A), [])
      | RelType.R_LARCH_ADD32 =>
        (writeLE buf off 4 (readLE buf off 4 + S + A), [])
      | RelType.R_LARCH_ADD64 =>
        (writeLE buf off 8 (readLE buf off 8 + S + A), [])
      | RelType.R_LARCH_SUB6 =>
        let b := buf.getD off 0
        (buf.set off ((b &&& 0b11000000) ||| (sub64 (sub64 b S) A &&& 0b00111111)), [])
      | RelType.R_LARCH_SUB8 =>
        (writeLE buf off 1 (sub64 (sub64 (readLE buf off 1) S) A), [])
      | RelType.R_LARCH_SUB16 =>
        (writeLE buf off 2 (sub64 (sub64 (readLE buf off 2) S) A), [])
      | RelType.R_LARCH_SUB32 =>
        (writeLE buf off 4 (sub64 (sub64 (readLE buf off 4) S) A), [])
      | RelType.R_LARCH_SUB64 =>
        (writeLE buf off 8 (sub64 (sub64 (readLE buf off 8) S) A), [])
      | RelType.R_LARCH_TLS_DTPREL32 =>
        match get_tombstone sym frag with
        | some v => (writeLE buf off 4 v, [])
        | none => (writeLE buf off 4 (sub64 (S + A) ctx.dtp_addr), [])
      | RelType.R_LARCH_TLS_DTPREL64 =>
        match get_tombstone sym frag with
        | some v => (writeLE buf off 8 v, [])
        | none => (writeLE buf off 8 (sub64 (S + A) ctx.dtp_addr), [])
      | RelType.R_LARCH_ADD_ULEB128 =>
        (patchULEB buf off (u64 (read_uleb (buf.drop off) + S + A)), [])
      | RelType.R_LARCH_SUB_ULEB128 =>
        (patchULEB buf off (sub64 (sub64 (read_uleb (buf.drop off)) S) A), [])
      | _ => (buf, [Err.fatal])

/-- Switch body of scan_relocations for one relocation kind: the new
flag word (starting from f1, the flags after the unconditional ifunc OR)
and the diagnostics.  The external collaborator calls only OR flag bits
in, per the spec. -/
def scanSwitch (ctx : Context) (sym : Symbol) (f1 : Nat) (t : RelType) :
    Nat × List Err :=
  match t with
        | RelType.R_LARCH_32 =>
          if ctx.is64 then (f1 ||| ctx.scan_absrel_flags, [])
          else (f1 ||| ctx.scan_dyn_absrel_flags, [])
        | RelType.R_LARCH_64 => (f1 ||| ctx.scan_dyn_absrel_flags, [])
        | RelType.R_LARCH_B26 =>
          (if sym.is_imported then f1 ||| NEEDS_PLT else f1, [])
        | RelType.R_LARCH_GOT_HI20 | RelType.R_LARCH_GOT_PC_HI20 =>
          (f1 ||| NEEDS_GOT, [])
        | RelType.R_LARCH_TLS_IE_HI20 | RelType.R_LARCH_TLS_IE_PC_HI20 =>
          (f1 ||| NEEDS_GOTTP, [])
        | RelType.R_LARCH_TLS_LD_PC_HI20 | RelType.R_LARCH_TLS_GD_PC_HI20
        | RelType.R_LARCH_TLS_LD_HI20 | RelType.R_LARCH_TLS_GD_HI20 =>
          (f1 ||| NEEDS_TLSGD, [])
        | RelType.R_LARCH_32_PCREL | RelType.R_LARCH_64_PCREL =>
          (f1 ||| ctx.scan_pcrel_flags, [])
        | RelType.R_LARCH_TLS_LE_HI20 | RelType.R_LARCH_TLS_LE_LO12
        | RelType.R_LARCH_TLS_LE64_LO20 | RelType.R_LARCH_TLS_LE64_HI12 =>
          (f1, if ctx.tlsle_err then [Err.tlsle] else [])
        | RelType.R_LARCH_B16 | RelType.R_LARCH_B21
        | RelType.R_LARCH_ABS_HI20 | RelType.R_LARCH_ABS_LO12
        | RelType.R_LARCH_ABS64_LO20 | RelType.R_LARCH_ABS64_HI12
        | RelType.R_LARCH_PCALA_HI20 | RelType.R_LARCH_PCALA_LO12
        | RelType.R_LARCH_PCALA64_LO20 | RelType.R_LARCH_PCALA64_HI12
        | RelType.R_LARCH_GOT_PC_LO12 | RelType.R_LARCH_GOT64_PC_LO20
        | RelType.R_LARCH_GOT64_PC_HI12 | RelType.R_LARCH_GOT_LO12
        | RelType.R_LARCH_GOT64_LO20 | RelType.R_LARCH_GOT64_HI12
        | RelType.R_LARCH_TLS_IE_PC_LO12 | RelType.R_LARCH_TLS_IE64_PC_LO20
        | RelType.R_LARCH_TLS_IE64_PC_HI12 | RelType.R_LARCH_TLS_IE_LO12
        | RelType.R_LARCH_TLS_IE64_LO20 | RelType.R_LARCH_TLS_IE64_HI12
        | RelType.R_LARCH_ADD6 | RelType.R_LARCH_SUB6
        | RelType.R_LARCH_ADD8 | RelType.R_LARCH_SUB8
        | RelType.R_LARCH_ADD16 | RelType.R_LARCH_SUB16
        | RelType.R_LARCH_ADD32 | RelType.R_LARCH_SUB32
        | RelType.R_LARCH_ADD64 | RelType.R_LARCH_SUB64
        | RelType.R_LARCH_ADD_ULEB128 | RelType.R_LARCH_SUB_ULEB128 =>
          (f1, [])
        | _ => (f1, [Err.unknown])

/-- One iteration of InputSection::scan_relocations (lines 534-631):
the updated symbol list and the diagnostics for this relocation. -/
def scanStep (ctx : Context) (syms : List Symbol) (rel : Rel) :
    List Symbol × List Err :=
  if skipKind rel.r_type then (syms, [])
  else
    let sym := syms.getD rel.r_sym default
    if sym.undef then (syms, [Err.undef])
    else if ¬ sym.hasFile then (syms, [Err.undef])
    else
      let f1 := if sym.is_ifunc then sym.flags ||| (NEEDS_GOT ||| NEEDS_PLT) else sym.flags
      let fe := scanSwitch ctx sym f1 rel.r_type
      (syms.set rel.r_sym { sym with flags := fe.fst }, fe.snd)

/-- EhFrameSection::apply_eh_reloc (lines 171-218): patches the unwind
metadata at shdr.sh_offset + offset of the output buffer; val is the
resolved value handed in by the caller. -/
def applyEhReloc (shAddr shOff : Nat) (buf : List Nat) (rel : Rel)
    (offset val : Nat) : List Nat × List Err :=
  let off := shOff + offset
  match rel.r_type with
  | RelType.R_NONE => (buf, [])
  | RelType.R_LARCH_ADD6 =>
    let b := buf.getD off 0
    (buf.set off ((b &&& 0b11000000) ||| (u64 (b + val) &&& 0b00111111)), [])
  | RelType.R_LARCH_ADD8 =>
    (writeLE buf off 1 (readLE buf off 1 + val), [])
  | RelType.R_LARCH_ADD16 =>
    (writeLE buf off 2 (readLE buf off 2 + val), [])
  | RelType.R_LARCH_ADD32 =>
    (writeLE buf off 4 (readLE buf off 4 + val), [])
  | RelType.R_LARCH_ADD64 =>
    (writeLE buf off 8 (readLE buf off 8 + val), [])
  | RelType.R_LARCH_SUB6 =>
    let b := buf.getD off 0
    (buf.set off ((b &&& 0b11000000) ||| (sub64 b val &&& 0b00111111)), [])
  | RelType.R_LARCH_SUB8 =>
    (writeLE buf off 1 (sub64 (readLE buf off 1) val), [])
  | RelType.R_LARCH_SUB16 =>
    (writeLE buf off 2 (sub64 (readLE buf off 2) val), [])
  | RelType.R_LARCH_SUB32 =>
    (writeLE buf off 4 (sub64 (readLE buf off 4) val), [])
  | RelType.R_LARCH_SUB64 =>
    (writeLE buf off 8 (sub64 (readLE buf off 8) val), [])
  | RelType.R_LARCH_32_PCREL =>
    (writeLE buf off 4 (sub64 (sub64 val shAddr) offset), [])
  | RelType.R_LARCH_64_PCREL =>
    (writeLE buf off 8 (sub64 (sub64 val shAddr) offset), [])
  | _ => (buf, [Err.fatal])

/-- Relocation loop of apply_reloc_alloc: diagnostics accumulate and
later relocations continue to be processed. -/
def applyRelocAlloc (ctx : Context) (secAddr : Nat) (syms : List Symbol)
    (buf : List Nat) : List Rel → List Nat × List Err
  | [] => (buf, [])
  | rel :: rest =>
    let st := applyAllocStep ctx secAddr syms buf rel
    let r := applyRelocAlloc ctx secAddr syms st.fst rest
    (r.fst, st.snd ++ r.snd)

/-- Relocation loop of apply_reloc_nonalloc; a fatal diagnostic aborts
the pass immediately (modelled from the spec description of Fatal). -/
def applyRelocNonalloc (ctx : Context) (syms : List Symbol)
    (buf : List Nat) : List Rel → List Nat × List Err
  | [] => (buf, [])
  | rel :: rest =>
    let st := applyNonallocStep ctx syms buf rel
    if Err.fatal ∈ st.snd then st
    else
      let r := applyRelocNonalloc ctx syms st.fst rest
      (r.fst, st.snd ++ r.snd)

/-- Relocation loop of scan_relocations. -/
def scanRelocations (ctx : Context) (syms : List Symbol) :
    List Rel → List Symbol × List Err
  | [] => (syms, [])
  | rel :: rest =>
    let st := scanStep ctx syms rel
    let r := scanRelocations ctx st.fst rest
    (r.fst, st.snd ++ r.snd)

/-- Instruction template of the 64-bit PLT header (insn_64). -/
def plt_hdr_insn_64 : List Nat :=
  [0x1c00000e, 0x0011bdad, 0x28c001cf, 0x02ff51ad,
   0x02c001cc, 0x004505ad, 0x28c0218c, 0x4c0001e0]

/-- Instruction template of the 32-bit PLT header (insn_32). -/
def plt_hdr_insn_32 : List Nat :=
  [0x1c00000e, 0x00113dad, 0x288001cf, 0x02bf51ad,
   0x028001cc, 0x004489ad, 0x2880118c, 0x4c0001e0]

/-- Instruction template of a 64-bit PLT entry (plt_entry_64). -/
def plt_entry_64 : List Nat := [0x1c00000f, 0x28c001ef, 0x4c0001ed, 0x03400000]

/-- Instruction template of a 32-bit PLT entry (plt_entry_32). -/
def plt_entry_32 : List Nat := [0x1c00000f, 0x288001ef, 0x4c0001ed, 0x03400000]

/-- Word-granular buffer update used by the PLT writers (all their
stores are aligned 32-bit stores). -/
def setWord (buf : List Nat) (i v : Nat) : List Nat := buf.set i v

/-- Word-granular buffer read used by the PLT writers. -/
def word (buf : List Nat) (i : Nat) : Nat := buf.getD i 0

/-- write_plt_header (lines 83-121) on a word-granular output buffer:
the template is memcpy-ed first, then the overflow check runs, and the
immediate fields are patched afterwards (an Error does not return). -/
def write_plt_header (ctx : Context) (buf : List Nat) : List Nat × List Err :=
  let b0 := (if ctx.is64 then plt_hdr_insn_64 else plt_hdr_insn_32) ++ buf.drop 8
  let gotplt := ctx.gotplt_addr
  let plt := ctx.plt_addr
  let errs := if u64 (sub64 gotplt plt + 0x80000800) > 0xffffffff then [Err.overflow] else []
  let b1 := setWord b0 0 (write_j20 (word b0 0) (u32 (mid20 gotplt plt >>> 12)))
  let b2 := setWord b1 2 (write_k12 (word b1 2) (u32 (sub64 gotplt plt)))
  let b3 := setWord b2 4 (write_k12 (word b2 4) (u32 (sub64 gotplt plt)))
  (b3, errs)

/-- write_plt_entry (lines 137-152) on a word-granular output buffer. -/
def write_plt_entry (ctx : Context) (buf : List Nat) (sym : Symbol) :
    List Nat × List Err :=
  let b0 := (if ctx.is64 then plt_entry_64 else plt_entry_32) ++ buf.drop 4
  let gotplt := sym.gotplt_addr
  let plt := sym.plt_addr
  let errs := if u64 (sub64 gotplt plt + 0x80000800) > 0xffffffff then [Err.overflow] else []
  let b1 := setWord b0 0 (write_j20 (word b0 0) (u32 (mid20 gotplt plt >>> 12)))
  let b2 := setWord b1 1 (write_k12 (word b1 1) (u32 (sub64 gotplt plt)))
  (b2, errs)

/-- write_pltgot_entry (lines 154-169): the same template, but the
immediate targets the plain GOT slot of the symbol. -/
def write_pltgot_entry (ctx : Context) (buf : List Nat) (sym : Symbol) :
    List Nat × List Err :=
  let b0 := (if ctx.is64 then plt_entry_64 else plt_entry_32) ++ buf.drop 4
  let got := sym.got_addr
  let plt := sym.plt_addr
  let errs := if u64 (sub64 got plt + 0x80000800) > 0xffffffff then [Err.overflow] else []
  let b1 := setWord b0 0 (write_j20 (word b0 0) (u32 (mid20 got plt >>> 12)))
  let b2 := setWord b1 1 (write_k12 (word b1 1) (u32 (sub64 got plt)))
  (b2, errs)

/-- C10: a relocation of kind R_NONE is skipped as a no-op by all four
passes: buffer, symbol flags and diagnostics are unchanged, and each
loop continues with the remaining relocations unaffected. -/
theorem rnone_noop (ctx : Context) (secAddr : Nat) (syms : List Symbol)
    (buf : List Nat) (off isym a : Nat) (rest : List Rel)
    (shAddr shOff offset val : Nat) :
    applyAllocStep ctx secAddr syms buf ⟨RelType.R_NONE, off, isym, a⟩ = (buf, []) ∧
    applyNonallocStep ctx syms buf ⟨RelType.R_NONE, off, isym, a⟩ = (buf, []) ∧
    scanStep ctx syms ⟨RelType.R_NONE, off, isym, a⟩ = (syms, []) ∧
    applyEhReloc shAddr shOff buf ⟨RelType.R_NONE, off, isym, a⟩ offset val = (buf, []) ∧
    applyRelocAlloc ctx secAddr syms buf (⟨RelType.R_NONE, off, isym, a⟩ :: rest) =
      applyRelocAlloc ctx secAddr syms buf rest ∧
    applyRelocNonalloc ctx syms buf (⟨RelType.R_NONE, off, isym, a⟩ :: rest) =
      applyRelocNonalloc ctx syms buf rest ∧
    scanRelocations ctx syms (⟨RelType.R_NONE, off, isym, a⟩ :: rest) =
      scanRelocations ctx syms rest := by
  refine ⟨rfl, rfl, rfl, rfl, ?_, ?_, ?_⟩ <;>
    simp [applyRelocAlloc, applyRelocNonalloc, scanRelocations,
      applyAllocStep, applyNonallocStep, scanStep, skipKind]

/-- Overflow condition of the PLT writers on the u64 slot distance. -/
def pltOverflow (dist : Nat) : Bool := decide (0xffffffff < u64 (dist + 0x80000800))

/-- PLT header contents after patching, spelled out word by word. -/
def pltHeaderPatched (ctx : Context) (buf : List Nat) : List Nat :=
  let ins := if ctx.is64 then plt_hdr_insn_64 else plt_hdr_insn_32
  let gotplt := ctx.gotplt_addr
  let plt := ctx.plt_addr
  [write_j20 (ins.getD 0 0) (u32 (mid20 gotplt plt >>> 12)),
   ins.getD 1 0,
   write_k12 (ins.getD 2 0) (u32 (sub64 gotplt plt)),
   ins.getD 3 0,
   write_k12 (ins.getD 4 0) (u32 (sub64 gotplt plt)),
   ins.getD 5 0, ins.getD 6 0, ins.getD 7 0] ++ buf.drop 8

/-- PLT or PLTGOT entry contents after patching, spelled out word by
word; target is the GOT-PLT (or GOT) slot address, plt the stub address. -/
def pltEntryPatched (is64 : Bool) (target plt : Nat) (buf : List Nat) : List Nat :=
  let ins := if is64 then plt_entry_64 else plt_entry_32
  [write_j20 (ins.getD 0 0) (u32 (mid20 target plt >>> 12)),
   write_k12 (ins.getD 1 0) (u32 (sub64 target plt)),
   ins.getD 2 0, ins.getD 3 0] ++ buf.drop 4

/-- C3 (amended): each PLT writer records an overflow diagnostic exactly
when the biased unsigned slot distance exceeds 0xffffffff, and the
template plus patched immediates are written to the buffer regardless of
the check - the copy precedes the check in the source and an Error does
not return. -/
theorem plt_overflow_characterization (ctx : Context) (buf : List Nat) (sym : Symbol) :
    write_plt_header ctx buf =
      (pltHeaderPatched ctx buf,
        if pltOverflow (sub64 ctx.gotplt_addr ctx.plt_addr) then [Err.overflow] else []) ∧
    write_plt_entry ctx buf sym =
      (pltEntryPatched ctx.is64 sym.gotplt_addr sym.plt_addr buf,
        if pltOverflow (sub64 sym.gotplt_addr sym.plt_addr) then [Err.overflow] else []) ∧
    write_pltgot_entry ctx buf sym =
      (pltEntryPatched ctx.is64 sym.got_addr sym.plt_addr buf,
        if pltOverflow (sub64 sym.got_addr sym.plt_addr) then [Err.overflow] else []) := by
  obtain ⟨i64, g, gp, p, tp, dtp, f1, f2, f3, te, dyn⟩ := ctx
  cases i64 <;>
    refine ⟨?_, ?_, ?_⟩ <;>
      simp [write_plt_header, write_plt_entry, write_pltgot_entry,
        pltHeaderPatched, pltEntryPatched, pltOverflow, setWord, word,
        plt_hdr_insn_64, plt_hdr_insn_32, plt_entry_64, plt_entry_32, u64]

/-- Context used in the C3 counterexample: a 64-bit link whose GOT-PLT
base is 2 ^ 32 bytes above the PLT base. -/
def ctxC3 : Context :=
  ⟨true, 0, 0x100000000, 0, 0, 0, 0, 0, 0, false, fun _ b => b⟩

/-- C3 counterexample: on an overflowing slot distance the header writer
records the overflow diagnostic, yet the buffer is not left untouched -
the template and immediates have been written. -/
theorem plt_overflow_writes_bytes :
    (write_plt_header ctxC3 [0, 0, 0, 0, 0, 0, 0, 0]).snd = [Err.overflow] ∧
    (write_plt_header ctxC3 [0, 0, 0, 0, 0, 0, 0, 0]).fst ≠ [0, 0, 0, 0, 0, 0, 0, 0] := by
  refine ⟨?_, ?_⟩ <;> decide

/-- Flag-membership test on the requirement bitset. -/
def hasFlag (flags bit : Nat) : Prop := flags &&& bit ≠ 0

instance (flags bit : Nat) : Decidable (hasFlag flags bit) := by
  unfold hasFlag; infer_instance

/-- Bit-set facts survive an OR on the left. -/
theorem hasFlag_or_left {a m : Nat} (x : Nat) (h : hasFlag a m) : hasFlag (a ||| x) m := by
  unfold hasFlag at h ⊢
  obtain ⟨i, hi⟩ := Nat.ne_zero_implies_bit_true h
  simp only [Nat.testBit_and, Bool.and_eq_true] at hi
  intro hz
  have hb : ((a ||| x) &&& m).testBit i = true := by
    simp [Nat.testBit_and, Nat.testBit_or, hi.1, hi.2]
  rw [hz] at hb
  simp at hb

/-- Bit-set facts survive an OR on the right. -/
theorem hasFlag_or_right {c m : Nat} (x : Nat) (h : hasFlag c m) : hasFlag (x ||| c) m := by
  rw [Nat.or_comm]
  exact hasFlag_or_left x h

/-- Flags of an ifunc symbol after the unconditional OR at the top of the
scan switch. -/
theorem hasFlag_base (f0 : Nat) :
    hasFlag (f0 ||| (NEEDS_GOT ||| NEEDS_PLT)) NEEDS_GOT ∧
      hasFlag (f0 ||| (NEEDS_GOT ||| NEEDS_PLT)) NEEDS_PLT :=
  ⟨hasFlag_or_right f0 (by decide), hasFlag_or_right f0 (by decide)⟩

/-- Reading back the element just stored. -/
theorem getD_set_self {α : Type} {l : List α} {i : Nat} {a d : α} (h : i < l.length) :
    (l.set i a).getD i d = a := by
  simp [List.getD_eq_getElem?_getD, List.getElem?_set_self h]

/-- Every branch of the scan switch only ORs further bits into f1. -/
theorem scanSwitch_mono (ctx : Context) (sym : Symbol) (f1 : Nat) (t : RelType)
    (m : Nat) (h : hasFlag f1 m) : hasFlag (scanSwitch ctx sym f1 t).fst m := by
  cases t <;>
    simp only [scanSwitch] <;>
    first
      | exact h
      | exact hasFlag_or_left _ h
      | (split <;> first | exact h | exact hasFlag_or_left _ h)

/-- C6: after one scan step over any relocation kind that reaches symbol
handling, a symbol flagged as an indirect-function resolver has both
NEEDS_GOT and NEEDS_PLT set, regardless of the relocation kind. -/
theorem scan_ifunc_flags (ctx : Context) (syms : List Symbol) (rel : Rel)
    (hskip : skipKind rel.r_type = false)
    (hidx : rel.r_sym < syms.length)
    (hundef : (syms.getD rel.r_sym default).undef = false)
    (hfile : (syms.getD rel.r_sym default).hasFile = true)
    (hifunc : (syms.getD rel.r_sym default).is_ifunc = true) :
    hasFlag ((scanStep ctx syms rel).fst.getD rel.r_sym default).flags NEEDS_GOT ∧
      hasFlag ((scanStep ctx syms rel).fst.getD rel.r_sym default).flags NEEDS_PLT := by
  have hred : (scanStep ctx syms rel).fst.getD rel.r_sym default =
      { syms.getD rel.r_sym default with
        flags := (scanSwitch ctx (syms.getD rel.r_sym default)
          ((syms.getD rel.r_sym default).flags ||| (NEEDS_GOT ||| NEEDS_PLT))
          rel.r_type).fst } := by
    simp only [scanStep, hskip, hundef, hfile, hifunc, Bool.false_eq_true,
      if_false, ite_true, ite_false, not_true, Bool.true_eq_false, if_true]
    rw [getD_set_self hidx]
  rw [hred]
  exact ⟨scanSwitch_mono _ _ _ _ _ (hasFlag_base _).1,
    scanSwitch_mono _ _ _ _ _ (hasFlag_base _).2⟩

/-- Closed witness for the C6 scan theorem: a GOT_PC_HI20 relocation
against an ifunc symbol. -/
theorem scan_ifunc_flags_witness :
    let sym : Symbol := ⟨0x1000, 0, 0, false, 0, 0, 0, 0, 0, true, false, true, false, none, none, 0⟩
    let rel : Rel := ⟨RelType.R_LARCH_GOT_PC_HI20, 0, 0, 0⟩
    skipKind rel.r_type = false ∧ rel.r_sym < [sym].length ∧
      ([sym].getD rel.r_sym default).undef = false ∧
      ([sym].getD rel.r_sym default).hasFile = true ∧
      ([sym].getD rel.r_sym default).is_ifunc = true ∧
      (hasFlag ((scanStep ctxC3 [sym] rel).fst.getD rel.r_sym default).flags NEEDS_GOT ∧
        hasFlag ((scanStep ctxC3 [sym] rel).fst.getD rel.r_sym default).flags NEEDS_PLT) := by
  refine ⟨by decide, by decide, by decide, by decide, by decide, ?_⟩
  exact scan_ifunc_flags ctxC3 _ _ (by decide) (by decide) (by decide) (by decide) (by decide)

/-- Neutral context for concrete witnesses: a 64-bit link with GOT base
0x2000. -/
def ctx0 : Context := ⟨true, 0x2000, 0, 0, 0, 0, 0, 0, 0, false, fun _ b => b⟩

/-- GOT byte offset of a symbol as the claim states it: the TLS-GD slot
index when the symbol has a TLS-GD slot (was marked NEEDS_TLSGD), else
the plain GOT slot index, times the word size. -/
def gotByteOffset (ctx : Context) (sym : Symbol) : Nat :=
  (if sym.has_tlsgd then sym.tlsgd_idx else sym.got_idx) * (if ctx.is64 then 8 else 4)

/-- C7: every GOT-relative case of the allocated-section applier
materializes GOT + G + A with G = gotByteOffset, the TLS-GD slot index
times the word size when the symbol has a TLS-GD slot, else the plain
GOT slot index times the word size. -/
theorem got_offset_used (ctx : Context) (secAddr : Nat) (syms : List Symbol)
    (buf : List Nat) (off isym a : Nat) :
    applyAllocStep ctx secAddr syms buf ⟨RelType.R_LARCH_GOT_PC_HI20, off, isym, a⟩ =
      (writeLE buf off 4 (write_j20 (readLE buf off 4)
        (intToU32 (toI64 (mid20 (u64 (ctx.got_addr +
          u64 (gotByteOffset ctx (syms.getD isym default)) + a))
          (u64 (secAddr + off))) >>> 12))),
        checkE (toI64 (mid20 (u64 (ctx.got_addr +
          u64 (gotByteOffset ctx (syms.getD isym default)) + a))
          (u64 (secAddr + off)))) (-(2 ^ 31)) (2 ^ 31)) ∧
    applyAllocStep ctx secAddr syms buf ⟨RelType.R_LARCH_GOT_PC_LO12, off, isym, a⟩ =
      (writeLE buf off 4 (write_k12 (readLE buf off 4)
        (u32 (ctx.got_addr + u64 (gotByteOffset ctx (syms.getD isym default)) + a))), []) ∧
    applyAllocStep ctx secAddr syms buf ⟨RelType.R_LARCH_GOT64_PC_LO20, off, isym, a⟩ =
      (writeLE buf off 4 (write_j20 (readLE buf off 4)
        (intToU32 (toI64 (alau64_hi32 (u64 (ctx.got_addr +
          u64 (gotByteOffset ctx (syms.getD isym default)) + a))
          (u64 (secAddr + off))) >>> 32))), []) ∧
    applyAllocStep ctx secAddr syms buf ⟨RelType.R_LARCH_GOT64_PC_HI12, off, isym, a⟩ =
      (writeLE buf off 4 (write_k12 (readLE buf off 4)
        (intToU32 (toI64 (alau64_hi32 (u64 (ctx.got_addr +
          u64 (gotByteOffset ctx (syms.getD isym default)) + a))
          (u64 (secAddr + off))) >>> 52))), []) ∧
    applyAllocStep ctx secAddr syms buf ⟨RelType.R_LARCH_GOT_HI20, off, isym, a⟩ =
      (writeLE buf off 4 (write_j20 (readLE buf off 4)
        (u32 (u64 (ctx.got_addr + u64 (gotByteOffset ctx (syms.getD isym default)) + a)
          >>> 12))), []) ∧
    applyAllocStep ctx secAddr syms buf ⟨RelType.R_LARCH_GOT_LO12, off, isym, a⟩ =
      (writeLE buf off 4 (write_k12 (readLE buf off 4)
        (u32 (ctx.got_addr + u64 (gotByteOffset ctx (syms.getD isym default)) + a))), []) ∧
    applyAllocStep ctx secAddr syms buf ⟨RelType.R_LARCH_GOT64_LO20, off, isym, a⟩ =
      (writeLE buf off 4 (write_j20 (readLE buf off 4)
        (u32 (u64 (ctx.got_addr + u64 (gotByteOffset ctx (syms.getD isym default)) + a)
          >>> 32))), []) ∧
    applyAllocStep ctx secAddr syms buf ⟨RelType.R_LARCH_GOT64_HI12, off, isym, a⟩ =
      (writeLE buf off 4 (write_k12 (readLE buf off 4)
        (u32 (u64 (ctx.got_addr + u64 (gotByteOffset ctx (syms.getD isym default)) + a)
          >>> 52))), []) :=
  ⟨rfl, rfl, rfl, rfl, rfl, rfl, rfl, rfl⟩

/-- Field width of a direct-branch relocation kind. -/
def branchWidth (t : RelType) : Nat :=
  match t with
  | RelType.R_LARCH_B16 => 16
  | RelType.R_LARCH_B21 => 21
  | RelType.R_LARCH_B26 => 26
  | _ => 0

/-- Split-field immediate writer matching a direct-branch kind. -/
def branchWriter (t : RelType) : Nat → Nat → Nat :=
  match t with
  | RelType.R_LARCH_B16 => write_k16
  | RelType.R_LARCH_B21 => write_d5k16
  | RelType.R_LARCH_B26 => write_d10k16
  | _ => fun ins _ => ins

/-- Membership of the alignment diagnostic in a check_branch result. -/
theorem align_mem_check_branch (pat : Nat) (lo hi : Int) :
    Err.align ∈ check_branch pat lo hi ↔ pat % 4 ≠ 0 := by
  have hand := Nat.and_pow_two_sub_one_eq_mod pat 2
  norm_num at hand
  unfold check_branch checkE
  rw [hand]
  split <;> split <;> simp_all

/-- Membership of the range diagnostic in a check_branch result. -/
theorem range_mem_check_branch (pat : Nat) (lo hi : Int) :
    Err.range ∈ check_branch pat lo hi ↔ (toI64 pat < lo ∨ hi ≤ toI64 pat) := by
  unfold check_branch checkE
  split <;> split <;> simp_all

/-- C2: a direct-branch relocation records an alignment diagnostic
exactly when the displacement has a nonzero bit among its low 2 bits, a
range diagnostic exactly when the signed displacement falls outside
[-2^(w+1), 2^(w+1)) for its width w, and when both checks pass the
shifted displacement is encoded through the matching split-field
writer. -/
theorem branch_check_characterization (ctx : Context) (secAddr : Nat)
    (syms : List Symbol) (buf : List Nat) (off isym a : Nat) (t : RelType)
    (ht : t = RelType.R_LARCH_B16 ∨ t = RelType.R_LARCH_B21 ∨ t = RelType.R_LARCH_B26) :
    (Err.align ∈ (applyAllocStep ctx secAddr syms buf ⟨t, off, isym, a⟩).snd ↔
      sub64 ((syms.getD isym default).addr + a) (u64 (secAddr + off)) % 4 ≠ 0) ∧
    (Err.range ∈ (applyAllocStep ctx secAddr syms buf ⟨t, off, isym, a⟩).snd ↔
      (toI64 (sub64 ((syms.getD isym default).addr + a) (u64 (secAddr + off))) <
          -(2 ^ (branchWidth t + 1)) ∨
        (2 ^ (branchWidth t + 1) : Int) ≤
          toI64 (sub64 ((syms.getD isym default).addr + a) (u64 (secAddr + off))))) ∧
    ((applyAllocStep ctx secAddr syms buf ⟨t, off, isym, a⟩).snd = [] →
      (applyAllocStep ctx secAddr syms buf ⟨t, off, isym, a⟩).fst =
        writeLE buf off 4 (branchWriter t (readLE buf off 4)
          (u32 (sub64 ((syms.getD isym default).addr + a) (u64 (secAddr + off)) >>> 2)))) := by
  rcases ht with h | h | h <;> subst h <;>
    exact ⟨align_mem_check_branch _ _ _, range_mem_check_branch _ _ _, fun _ => rfl⟩

/-- Symbol at address 3 with an owning file, used by concrete witnesses. -/
def symW : Symbol := ⟨3, 0, 0, false, 0, 0, 0, 0, 0, false, false, true, false, none, none, 0⟩

/-- Closed witness for the C2 branch characterization at a B16
relocation with displacement 3. -/
theorem branch_check_characterization_witness :
    (RelType.R_LARCH_B16 = RelType.R_LARCH_B16 ∨
      RelType.R_LARCH_B16 = RelType.R_LARCH_B21 ∨
      RelType.R_LARCH_B16 = RelType.R_LARCH_B26) ∧
    (Err.align ∈ (applyAllocStep ctx0 0 [symW] [0xff, 0xff, 0xff, 0xff]
        ⟨RelType.R_LARCH_B16, 0, 0, 0⟩).snd ↔
      sub64 (([symW].getD 0 default).addr + 0) (u64 (0 + 0)) % 4 ≠ 0) :=
  ⟨Or.inl rfl,
    (branch_check_characterization ctx0 0 [symW] [0xff, 0xff, 0xff, 0xff] 0 0 0
      RelType.R_LARCH_B16 (Or.inl rfl)).1⟩

/-- Buffer contents produced by a check-bearing relocation kind of the
allocated-section applier (the write that follows its range or alignment
check in the source). -/
def checkedKindWrite (t : RelType) (buf : List Nat) (off S A P : Nat) : List Nat :=
  match t with
  | RelType.R_LARCH_B16 | RelType.R_LARCH_B21 | RelType.R_LARCH_B26 =>
    writeLE buf off 4 (branchWriter t (readLE buf off 4) (u32 (sub64 (S + A) P >>> 2)))
  | RelType.R_LARCH_PCALA_HI20 =>
    writeLE buf off 4 (write_j20 (readLE buf off 4)
      (intToU32 (toI64 (mid20 (u64 (S + A)) P) >>> 12)))
  | _ => buf

/-- C4 (amended): when the range or alignment check of a relocation
fails, the diagnostic is recorded but processing of that relocation
continues - the value is still encoded and written at the patch site -
and sibling relocations are processed against the updated buffer, with
the diagnostics appended. -/
theorem reloc_error_still_writes (ctx : Context) (secAddr : Nat)
    (syms : List Symbol) (buf : List Nat) (off isym a : Nat) (t : RelType)
    (rest : List Rel)
    (hk : t = RelType.R_LARCH_B16 ∨ t = RelType.R_LARCH_B21 ∨
      t = RelType.R_LARCH_B26 ∨ t = RelType.R_LARCH_PCALA_HI20)
    (_herr : (applyAllocStep ctx secAddr syms buf ⟨t, off, isym, a⟩).snd ≠ []) :
    (applyAllocStep ctx secAddr syms buf ⟨t, off, isym, a⟩).fst =
      checkedKindWrite t buf off (syms.getD isym default).addr a (u64 (secAddr + off)) ∧
    applyRelocAlloc ctx secAddr syms buf (⟨t, off, isym, a⟩ :: rest) =
      ((applyRelocAlloc ctx secAddr syms
          (checkedKindWrite t buf off (syms.getD isym default).addr a
            (u64 (secAddr + off))) rest).fst,
        (applyAllocStep ctx secAddr syms buf ⟨t, off, isym, a⟩).snd ++
          (applyRelocAlloc ctx secAddr syms
            (checkedKindWrite t buf off (syms.getD isym default).addr a
              (u64 (secAddr + off))) rest).snd) := by
  rcases hk with h | h | h | h <;> subst h <;> exact ⟨rfl, rfl⟩

/-- Closed witness for the amended C4 theorem: a misaligned B16 branch. -/
theorem reloc_error_still_writes_witness :
    (RelType.R_LARCH_B16 = RelType.R_LARCH_B16 ∨
      RelType.R_LARCH_B16 = RelType.R_LARCH_B21 ∨
      RelType.R_LARCH_B16 = RelType.R_LARCH_B26 ∨
      RelType.R_LARCH_B16 = RelType.R_LARCH_PCALA_HI20) ∧
    (applyAllocStep ctx0 0 [symW] [0xff, 0xff, 0xff, 0xff]
      ⟨RelType.R_LARCH_B16, 0, 0, 0⟩).snd ≠ [] ∧
    (applyAllocStep ctx0 0 [symW] [0xff, 0xff, 0xff, 0xff]
        ⟨RelType.R_LARCH_B16, 0, 0, 0⟩).fst =
      checkedKindWrite RelType.R_LARCH_B16 [0xff, 0xff, 0xff, 0xff] 0
        ([symW].getD 0 default).addr 0 (u64 (0 + 0)) :=
  ⟨Or.inl rfl, by decide,
    (reloc_error_still_writes ctx0 0 [symW] [0xff, 0xff, 0xff, 0xff] 0 0 0
      RelType.R_LARCH_B16 [] (Or.inl rfl) (by decide)).1⟩

/-- C4 counterexample: a B16 branch with displacement 3 records an
alignment diagnostic, yet the bytes at the patch site are modified, not
left untouched as the claim states. -/
theorem reloc_error_modifies_bytes :
    (applyAllocStep ctx0 0 [symW] [0xff, 0xff, 0xff, 0xff]
      ⟨RelType.R_LARCH_B16, 0, 0, 0⟩).snd = [Err.align] ∧
    (applyAllocStep ctx0 0 [symW] [0xff, 0xff, 0xff, 0xff]
      ⟨RelType.R_LARCH_B16, 0, 0, 0⟩).fst ≠ [0xff, 0xff, 0xff, 0xff] := by
  refine ⟨?_, ?_⟩ <;> decide

/-- Symbol whose owning section was discarded: the tombstone resolver
yields an override value. -/
def symC5 : Symbol :=
  ⟨0x100, 0, 0, false, 0, 0, 0, 0, 0, false, false, true, false, some 0x11111111, none, 0⟩

/-- C5 (amended): in the non-allocated-section applier the tombstone
override is consulted exactly by the kinds R_LARCH_64, TLS_DTPREL32 and
TLS_DTPREL64; for those, a tombstoned symbol stores the override value
instead of S + A. -/
theorem nonalloc_tombstone_value (ctx : Context) (syms : List Symbol)
    (buf : List Nat) (off isym a v : Nat) (t : RelType)
    (hk : t = RelType.R_LARCH_64 ∨ t = RelType.R_LARCH_TLS_DTPREL32 ∨
      t = RelType.R_LARCH_TLS_DTPREL64)
    (hfile : (syms.getD isym default).hasFile = true)
    (htomb : get_tombstone (syms.getD isym default) (syms.getD isym default).frag =
      some v) :
    applyNonallocStep ctx syms buf ⟨t, off, isym, a⟩ =
      (writeLE buf off (if t = RelType.R_LARCH_TLS_DTPREL32 then 4 else 8) v, []) := by
  rcases hk with h | h | h <;> subst h <;>
    simp only [List.getD_eq_getElem?_getD] at hfile htomb <;>
    simp [applyNonallocStep, hfile, htomb]

/-- Closed witness for the amended C5 theorem at an R_LARCH_64
relocation against a tombstoned symbol. -/
theorem nonalloc_tombstone_value_witness :
    (RelType.R_LARCH_64 = RelType.R_LARCH_64 ∨
      RelType.R_LARCH_64 = RelType.R_LARCH_TLS_DTPREL32 ∨
      RelType.R_LARCH_64 = RelType.R_LARCH_TLS_DTPREL64) ∧
    ([symC5].getD 0 default).hasFile = true ∧
    get_tombstone ([symC5].getD 0 default) ([symC5].getD 0 default).frag =
      some 0x11111111 ∧
    applyNonallocStep ctx0 [symC5] [0, 0, 0, 0, 0, 0, 0, 0]
        ⟨RelType.R_LARCH_64, 0, 0, 0⟩ =
      (writeLE [0, 0, 0, 0, 0, 0, 0, 0] 0
        (if RelType.R_LARCH_64 = RelType.R_LARCH_TLS_DTPREL32 then 4 else 8)
        0x11111111, []) :=
  ⟨Or.inl rfl, by decide, by decide,
    nonalloc_tombstone_value ctx0 [symC5] [0, 0, 0, 0, 0, 0, 0, 0] 0 0 0
      0x11111111 RelType.R_LARCH_64 (Or.inl rfl) (by decide) (by decide)⟩

/-- C5 counterexample: R_LARCH_32 is a supported kind of the
non-allocated applier, yet against a tombstoned symbol it stores S + A,
not the override value. -/
theorem nonalloc_r32_ignores_tombstone :
    get_tombstone symC5 symC5.frag = some 0x11111111 ∧
    readLE (applyNonallocStep ctx0 [symC5] [0, 0, 0, 0]
      ⟨RelType.R_LARCH_32, 0, 0, 0⟩).fst 0 4 = 0x100 ∧
    (0x100 : Nat) ≠ 0x11111111 := by
  refine ⟨?_, ?_, ?_⟩ <;> decide

/-- writeLE preserves the buffer length. -/
theorem length_writeLE (n : Nat) : ∀ (buf : List Nat) (off v : Nat),
    (writeLE buf off n v).length = buf.length := by
  induction n with
  | zero => intro buf off v; rfl
  | succ m ih =>
    intro buf off v
    simp only [writeLE]
    rw [ih, List.length_set]

/-- Bytes strictly below the write window are untouched. -/
theorem getD_writeLE_lt (n : Nat) : ∀ (buf : List Nat) (off v j : Nat), j < off →
    (writeLE buf off n v).getD j 0 = buf.getD j 0 := by
  induction n with
  | zero => intro buf off v j hj; rfl
  | succ m ih =>
    intro buf off v j hj
    simp only [writeLE]
    rw [ih _ _ _ _ (by omega)]
    simp [List.getD_eq_getElem?_getD, List.getElem?_set_ne (by omega : off ≠ j)]

/-- Reading back a write yields the stored value modulo 256 ^ n. -/
theorem readLE_writeLE (n : Nat) : ∀ (buf : List Nat) (off v : Nat),
    off + n ≤ buf.length → readLE (writeLE buf off n v) off n = v % 256 ^ n := by
  induction n with
  | zero => intro buf off v h; simp [readLE, Nat.mod_one]
  | succ m ih =>
    intro buf off v h
    simp only [writeLE, readLE]
    rw [getD_writeLE_lt m _ _ _ _ (by omega)]
    rw [ih _ _ _ (by rw [List.length_set]; omega)]
    rw [List.getD_eq_getElem?_getD, List.getElem?_set_self (by omega), Option.getD_some]
    rw [pow_succ, mul_comm (256 ^ m) 256]
    exact (Nat.mod_mul).symm

/-- Reads from a well-formed byte buffer are below 256 ^ n. -/
theorem readLE_lt (n : Nat) : ∀ (buf : List Nat) (off : Nat),
    (∀ b ∈ buf, b < 256) → readLE buf off n < 256 ^ n := by
  induction n with
  | zero => intro buf off hb; simp [readLE]
  | succ m ih =>
    intro buf off hb
    have h1 : buf.getD off 0 < 256 := by
      rcases Nat.lt_or_ge off buf.length with h | h
      · rw [List.getD_eq_getElem?_getD, List.getElem?_eq_getElem h, Option.getD_some]
        exact hb _ (List.getElem_mem h)
      · rw [List.getD_eq_getElem?_getD, List.getElem?_eq_none (by omega), Option.getD_none]
        norm_num
    have h2 := ih buf (off + 1) hb
    simp only [readLE]
    have h3 : 256 ^ (m + 1) = 256 * 256 ^ m := by rw [pow_succ]; ring
    omega

/-- Overwriting a position with the byte it already holds is a no-op. -/
theorem set_getD_self : ∀ (buf : List Nat) (off : Nat), off < buf.length →
    buf.set off (buf.getD off 0) = buf := by
  intro buf
  induction buf with
  | nil => intro off h; simp at h
  | cons b t ih =>
    intro off h
    cases off with
    | zero => rfl
    | succ o =>
      have h2 : o < t.length := by simpa using h
      simp only [List.getD_eq_getElem?_getD, List.getElem?_cons_succ, List.set]
      rw [← List.getD_eq_getElem?_getD, ih o h2]

/-- Writing back the bytes just read restores the buffer. -/
theorem writeLE_readLE (n : Nat) : ∀ (buf : List Nat) (off : Nat),
    (∀ b ∈ buf, b < 256) → off + n ≤ buf.length →
    writeLE buf off n (readLE buf off n) = buf := by
  induction n with
  | zero => intro buf off hb h; rfl
  | succ m ih =>
    intro buf off hb h
    have hlt : buf.getD off 0 < 256 := by
      rw [List.getD_eq_getElem?_getD, List.getElem?_eq_getElem (by omega), Option.getD_some]
      exact hb _ (List.getElem_mem (by omega))
    simp only [writeLE, readLE]
    have e1 : (buf.getD off 0 + 256 * readLE buf (off + 1) m) % 256 = buf.getD off 0 := by
      omega
    have e2 : (buf.getD off 0 + 256 * readLE buf (off + 1) m) / 256 =
        readLE buf (off + 1) m := by omega
    rw [e1, e2, set_getD_self _ _ (by omega), ih _ _ hb (by omega)]

/-- writeLE only depends on the stored value modulo 256 ^ n. -/
theorem writeLE_mod (n : Nat) : ∀ (buf : List Nat) (off v : Nat),
    writeLE buf off n (v % 256 ^ n) = writeLE buf off n v := by
  induction n with
  | zero => intro buf off v; rfl
  | succ m ih =>
    intro buf off v
    simp only [writeLE]
    have e1 : v % 256 ^ (m + 1) % 256 = v % 256 :=
      Nat.mod_mod_of_dvd v ⟨256 ^ m, by rw [pow_succ, mul_comm]⟩
    have e2 : v % 256 ^ (m + 1) / 256 = v / 256 % 256 ^ m := by
      rw [pow_succ, mul_comm (256 ^ m) 256]
      exact Nat.mod_mul_right_div_self v 256 (256 ^ m)
    rw [e1, e2, ih]

/-- A set below the window commutes out of writeLE. -/
theorem set_writeLE (n : Nat) : ∀ (buf : List Nat) (off v j x : Nat), j < off →
    (writeLE buf off n v).set j x = writeLE (buf.set j x) off n v := by
  induction n with
  | zero => intro buf off v j x hj; rfl
  | succ m ih =>
    intro buf off v j x hj
    simp only [writeLE]
    rw [ih _ _ _ _ _ (by omega), List.set_comm _ _ _ (by omega : off ≠ j)]

/-- Overwriting a window twice keeps only the last write. -/
theorem writeLE_writeLE (n : Nat) : ∀ (buf : List Nat) (off v w : Nat),
    writeLE (writeLE buf off n v) off n w = writeLE buf off n w := by
  induction n with
  | zero => intro buf off v w; rfl
  | succ m ih =>
    intro buf off v w
    simp only [writeLE]
    rw [set_writeLE m _ _ _ _ _ (by omega), ih, List.set_set]

/-- Adding back the subtrahend of a u64 subtraction, modulo a divisor of
2 ^ 64, recovers the minuend. -/
theorem sub64_add_cancel {m : Nat} (k : Nat) (hk : 2 ^ 64 = m * k) (a b : Nat) :
    (sub64 a b + b) % m = a % m := by
  have h1 : (sub64 a b + b) % m = ((a + (2 ^ 64 - b % 2 ^ 64)) + b) % m := by
    unfold sub64
    conv_lhs => rw [Nat.add_mod]
    conv_rhs => rw [Nat.add_mod]
    rw [Nat.mod_mod_of_dvd _ ⟨k, hk⟩]
  have e : (a + (2 ^ 64 - b % 2 ^ 64)) + b = a + 2 ^ 64 * (b / 2 ^ 64 + 1) := by
    omega
  have e2 : 2 ^ 64 * (b / 2 ^ 64 + 1) = m * (k * (b / 2 ^ 64 + 1)) := by
    rw [hk]; ring
  rw [h1, e, e2]
  exact Nat.add_mul_mod_self_left a m (k * (b / 2 ^ 64 + 1))

/-- ADD then SUB accumulation round-trip on an n-byte window. -/
theorem addsub_roundtrip (n k : Nat) (hk : 2 ^ 64 = 256 ^ n * k)
    (buf : List Nat) (off S A : Nat)
    (hb : ∀ b ∈ buf, b < 256) (h : off + n ≤ buf.length) :
    writeLE (writeLE buf off n (readLE buf off n + S + A)) off n
      (sub64 (sub64 (readLE (writeLE buf off n (readLE buf off n + S + A)) off n) S) A)
      = buf := by
  have hxlt : readLE buf off n < 256 ^ n := readLE_lt n buf off hb
  have h1 : readLE (writeLE buf off n (readLE buf off n + S + A)) off n =
      (readLE buf off n + S + A) % 256 ^ n := readLE_writeLE n buf off _ h
  rw [h1, writeLE_writeLE]
  have c1 : (sub64 (sub64 ((readLE buf off n + S + A) % 256 ^ n) S) A + A) % 256 ^ n =
      sub64 ((readLE buf off n + S + A) % 256 ^ n) S % 256 ^ n :=
    sub64_add_cancel k hk _ A
  have c2 : (sub64 ((readLE buf off n + S + A) % 256 ^ n) S + S) % 256 ^ n =
      (readLE buf off n + S + A) % 256 ^ n % 256 ^ n :=
    sub64_add_cancel k hk _ S
  have key : sub64 (sub64 ((readLE buf off n + S + A) % 256 ^ n) S) A % 256 ^ n =
      readLE buf off n := by
    have m1 : sub64 (sub64 ((readLE buf off n + S + A) % 256 ^ n) S) A + A + S ≡
        readLE buf off n + S + A [MOD 256 ^ n] := by
      calc sub64 (sub64 ((readLE buf off n + S + A) % 256 ^ n) S) A + A + S
          ≡ sub64 ((readLE buf off n + S + A) % 256 ^ n) S + S [MOD 256 ^ n] :=
            Nat.ModEq.add_right S c1
        _ ≡ (readLE buf off n + S + A) % 256 ^ n [MOD 256 ^ n] := c2
        _ ≡ readLE buf off n + S + A [MOD 256 ^ n] := Nat.mod_modEq _ _
    have m2 : sub64 (sub64 ((readLE buf off n + S + A) % 256 ^ n) S) A + (A + S) ≡
        readLE buf off n + (A + S) [MOD 256 ^ n] := by
      calc sub64 (sub64 ((readLE buf off n + S + A) % 256 ^ n) S) A + (A + S)
          = sub64 (sub64 ((readLE buf off n + S + A) % 256 ^ n) S) A + A + S := by ring
        _ ≡ readLE buf off n + S + A [MOD 256 ^ n] := m1
        _ = readLE buf off n + (A + S) := by ring
    have m3 := Nat.ModEq.add_right_cancel' (A + S) m2
    have m4 : sub64 (sub64 ((readLE buf off n + S + A) % 256 ^ n) S) A % 256 ^ n =
        readLE buf off n % 256 ^ n := m3
    exact m4.trans (Nat.mod_eq_of_lt hxlt)
  calc writeLE buf off n (sub64 (sub64 ((readLE buf off n + S + A) % 256 ^ n) S) A)
      = writeLE buf off n
        (sub64 (sub64 ((readLE buf off n + S + A) % 256 ^ n) S) A % 256 ^ n) :=
        (writeLE_mod n buf off _).symm
    _ = writeLE buf off n (readLE buf off n) := by rw [key]
    _ = buf := writeLE_readLE n buf off hb h

/-- Bitwise and with 63 is reduction modulo 64. -/
theorem and63 (x : Nat) : x &&& 63 = x % 64 := by
  have h := Nat.and_pow_two_sub_one_eq_mod x 6
  norm_num at h
  exact h

set_option maxRecDepth 4000 in
/-- Bitwise and with 192 on a byte extracts the top two bits. -/
theorem and192 : ∀ x < 256, x &&& 192 = x / 64 * 64 := by decide

set_option maxRecDepth 4000 in
/-- OR of the top-bit field with a low value is addition. -/
theorem orTop : ∀ c < 4, ∀ z < 64, (c * 64 ||| z) = c * 64 + z := by decide

/-- ADD6 then SUB6 with the same S and A restores the byte, and each of
the two operations preserves the top 2 control bits. -/
theorem add6_sub6_byte (b S A : Nat) (hb : b < 256) :
    ((((b &&& 192) ||| (u64 (b + S + A) &&& 63)) &&& 192) |||
      (sub64 (sub64 ((b &&& 192) ||| (u64 (b + S + A) &&& 63)) S) A &&& 63)) = b ∧
    ((b &&& 192) ||| (u64 (b + S + A) &&& 63)) &&& 192 = b &&& 192 ∧
    ((b &&& 192) ||| (sub64 (sub64 b S) A &&& 63)) &&& 192 = b &&& 192 := by
  have h1 : u64 (b + S + A) &&& 63 = (b + S + A) % 64 := by
    rw [and63]; unfold u64; omega
  have hbt : b &&& 192 = b / 64 * 64 := and192 b hb
  have hc : b / 64 < 4 := by omega
  rw [h1, hbt, orTop _ hc _ (by omega)]
  have hb1lt : b / 64 * 64 + (b + S + A) % 64 < 256 := by omega
  have hbt1 : (b / 64 * 64 + (b + S + A) % 64) &&& 192 =
      (b / 64 * 64 + (b + S + A) % 64) / 64 * 64 := and192 _ hb1lt
  have e1 : (b / 64 * 64 + (b + S + A) % 64) / 64 = b / 64 := by omega
  refine ⟨?_, ?_, ?_⟩
  · have h2 : sub64 (sub64 (b / 64 * 64 + (b + S + A) % 64) S) A &&& 63 = b % 64 := by
      rw [and63]; unfold sub64; omega
    rw [hbt1, e1, h2, orTop _ hc _ (by omega)]
    omega
  · rw [hbt1, e1]
  · have h3 : sub64 (sub64 b S) A &&& 63 = sub64 (sub64 b S) A % 64 := and63 _
    have h4 : sub64 (sub64 b S) A % 64 < 64 := by omega
    rw [h3, orTop _ hc _ h4]
    have hlt2 : b / 64 * 64 + sub64 (sub64 b S) A % 64 < 256 := by omega
    rw [and192 _ hlt2]
    omega

/-- Step equation of the ADD6 case of the allocated-section applier. -/
theorem stepADD6_eq (ctx : Context) (secAddr : Nat) (syms : List Symbol)
    (buf : List Nat) (off isym a : Nat) :
    applyAllocStep ctx secAddr syms buf ⟨RelType.R_LARCH_ADD6, off, isym, a⟩ =
      (buf.set off ((buf.getD off 0 &&& 192) |||
        (u64 (buf.getD off 0 + (syms.getD isym default).addr + a) &&& 63)), []) := rfl

/-- Step equation of the SUB6 case of the allocated-section applier. -/
theorem stepSUB6_eq (ctx : Context) (secAddr : Nat) (syms : List Symbol)
    (buf : List Nat) (off isym a : Nat) :
    applyAllocStep ctx secAddr syms buf ⟨RelType.R_LARCH_SUB6, off, isym, a⟩ =
      (buf.set off ((buf.getD off 0 &&& 192) |||
        (sub64 (sub64 (buf.getD off 0) (syms.getD isym default).addr) a &&& 63)), []) := rfl

/-- Step equation of the ADD8 case of the allocated-section applier. -/
theorem stepADD8_eq (ctx : Context) (secAddr : Nat) (syms : List Symbol)
    (buf : List Nat) (off isym a : Nat) :
    applyAllocStep ctx secAddr syms buf ⟨RelType.R_LARCH_ADD8, off, isym, a⟩ =
      (writeLE buf off 1 (readLE buf off 1 + (syms.getD isym default).addr + a), []) := rfl

/-- Step equation of the SUB8 case of the allocated-section applier. -/
theorem stepSUB8_eq (ctx : Context) (secAddr : Nat) (syms : List Symbol)
    (buf : List Nat) (off isym a : Nat) :
    applyAllocStep ctx secAddr syms buf ⟨RelType.R_LARCH_SUB8, off, isym, a⟩ =
      (writeLE buf off 1
        (sub64 (sub64 (readLE buf off 1) (syms.getD isym default).addr) a), []) := rfl

/-- Step equation of the ADD16 case of the allocated-section applier. -/
theorem stepADD16_eq (ctx : Context) (secAddr : Nat) (syms : List Symbol)
    (buf : List Nat) (off isym a : Nat) :
    applyAllocStep ctx secAddr syms buf ⟨RelType.R_LARCH_ADD16, off, isym, a⟩ =
      (writeLE buf off 2 (readLE buf off 2 + (syms.getD isym default).addr + a), []) := rfl

/-- Step equation of the SUB16 case of the allocated-section applier. -/
theorem stepSUB16_eq (ctx : Context) (secAddr : Nat) (syms : List Symbol)
    (buf : List Nat) (off isym a : Nat) :
    applyAllocStep ctx secAddr syms buf ⟨RelType.R_LARCH_SUB16, off, isym, a⟩ =
      (writeLE buf off 2
        (sub64 (sub64 (readLE buf off 2) (syms.getD isym default).addr) a), []) := rfl

/-- Step equation of the ADD32 case of the allocated-section applier. -/
theorem stepADD32_eq (ctx : Context) (secAddr : Nat) (syms : List Symbol)
    (buf : List Nat) (off isym a : Nat) :
    applyAllocStep ctx secAddr syms buf ⟨RelType.R_LARCH_ADD32, off, isym, a⟩ =
      (writeLE buf off 4 (readLE buf off 4 + (syms.getD isym default).addr + a), []) := rfl

/-- Step equation of the SUB32 case of the allocated-section applier. -/
theorem stepSUB32_eq (ctx : Context) (secAddr : Nat) (syms : List Symbol)
    (buf : List Nat) (off isym a : Nat) :
    applyAllocStep ctx secAddr syms buf ⟨RelType.R_LARCH_SUB32, off, isym, a⟩ =
      (writeLE buf off 4
        (sub64 (sub64 (readLE buf off 4) (syms.getD isym default).addr) a), []) := rfl

/-- Step equation of the ADD64 case of the allocated-section applier. -/
theorem stepADD64_eq (ctx : Context) (secAddr : Nat) (syms : List Symbol)
    (buf : List Nat) (off isym a : Nat) :
    applyAllocStep ctx secAddr syms buf ⟨RelType.R_LARCH_ADD64, off, isym, a⟩ =
      (writeLE buf off 8 (readLE buf off 8 + (syms.getD isym default).addr + a), []) := rfl

/-- Step equation of the SUB64 case of the allocated-section applier. -/
theorem stepSUB64_eq (ctx : Context) (secAddr : Nat) (syms : List Symbol)
    (buf : List Nat) (off isym a : Nat) :
    applyAllocStep ctx secAddr syms buf ⟨RelType.R_LARCH_SUB64, off, isym, a⟩ =
      (writeLE buf off 8
        (sub64 (sub64 (readLE buf off 8) (syms.getD isym default).addr) a), []) := rfl

/-- C8: for every width in {6, 8, 16, 32, 64}, applying the
ADD-accumulate relocation and then the SUB-accumulate relocation of the
same width with the same symbol and addend restores the buffer exactly,
and the 6-bit variant preserves the top 2 control bits of its byte
across each individual application. -/
theorem addsub_inverse (ctx : Context) (secAddr : Nat) (syms : List Symbol)
    (buf : List Nat) (off isym a : Nat) (hb : ∀ b ∈ buf, b < 256) :
    (off + 1 ≤ buf.length →
      (applyAllocStep ctx secAddr syms
        (applyAllocStep ctx secAddr syms buf ⟨RelType.R_LARCH_ADD8, off, isym, a⟩).fst
        ⟨RelType.R_LARCH_SUB8, off, isym, a⟩).fst = buf) ∧
    (off + 2 ≤ buf.length →
      (applyAllocStep ctx secAddr syms
        (applyAllocStep ctx secAddr syms buf ⟨RelType.R_LARCH_ADD16, off, isym, a⟩).fst
        ⟨RelType.R_LARCH_SUB16, off, isym, a⟩).fst = buf) ∧
    (off + 4 ≤ buf.length →
      (applyAllocStep ctx secAddr syms
        (applyAllocStep ctx secAddr syms buf ⟨RelType.R_LARCH_ADD32, off, isym, a⟩).fst
        ⟨RelType.R_LARCH_SUB32, off, isym, a⟩).fst = buf) ∧
    (off + 8 ≤ buf.length →
      (applyAllocStep ctx secAddr syms
        (applyAllocStep ctx secAddr syms buf ⟨RelType.R_LARCH_ADD64, off, isym, a⟩).fst
        ⟨RelType.R_LARCH_SUB64, off, isym, a⟩).fst = buf) ∧
    (off < buf.length →
      (applyAllocStep ctx secAddr syms
        (applyAllocStep ctx secAddr syms buf ⟨RelType.R_LARCH_ADD6, off, isym, a⟩).fst
        ⟨RelType.R_LARCH_SUB6, off, isym, a⟩).fst = buf) ∧
    ((applyAllocStep ctx secAddr syms buf ⟨RelType.R_LARCH_ADD6, off, isym, a⟩).fst.getD
        off 0 &&& 192 = buf.getD off 0 &&& 192) ∧
    ((applyAllocStep ctx secAddr syms buf ⟨RelType.R_LARCH_SUB6, off, isym, a⟩).fst.getD
        off 0 &&& 192 = buf.getD off 0 &&& 192) := by
  have hgd : buf.getD off 0 < 256 := by
    rcases Nat.lt_or_ge off buf.length with h | h
    · rw [List.getD_eq_getElem?_getD, List.getElem?_eq_getElem h, Option.getD_some]
      exact hb _ (List.getElem_mem h)
    · rw [List.getD_eq_getElem?_getD, List.getElem?_eq_none (by omega), Option.getD_none]
      norm_num
  have hbyte := add6_sub6_byte (buf.getD off 0) (syms.getD isym default).addr a hgd
  refine ⟨?_, ?_, ?_, ?_, ?_, ?_, ?_⟩
  · intro h
    simp only [stepADD8_eq, stepSUB8_eq]
    exact addsub_roundtrip 1 (2 ^ 56) (by norm_num) buf off _ a hb h
  · intro h
    simp only [stepADD16_eq, stepSUB16_eq]
    exact addsub_roundtrip 2 (2 ^ 48) (by norm_num) buf off _ a hb h
  · intro h
    simp only [stepADD32_eq, stepSUB32_eq]
    exact addsub_roundtrip 4 (2 ^ 32) (by norm_num) buf off _ a hb h
  · intro h
    simp only [stepADD64_eq, stepSUB64_eq]
    exact addsub_roundtrip 8 1 (by norm_num) buf off _ a hb h
  · intro h
    simp only [stepADD6_eq, stepSUB6_eq]
    rw [getD_set_self h, List.set_set, hbyte.1, set_getD_self _ _ h]
  · simp only [stepADD6_eq]
    rcases Nat.lt_or_ge off buf.length with h | h
    · rw [getD_set_self h]
      exact hbyte.2.1
    · rw [List.set_eq_of_length_le h]
  · simp only [stepSUB6_eq]
    rcases Nat.lt_or_ge off buf.length with h | h
    · rw [getD_set_self h]
      exact hbyte.2.2
    · rw [List.set_eq_of_length_le h]

/-- Closed witness for the C8 round-trip at the 16-bit width. -/
theorem addsub_inverse_witness :
    (∀ b ∈ [1, 2, 3, 4, 5, 6, 7, 8], b < 256) ∧
    0 + 2 ≤ [1, 2, 3, 4, 5, 6, 7, 8].length ∧
    (applyAllocStep ctx0 0 [symW]
      (applyAllocStep ctx0 0 [symW] [1, 2, 3, 4, 5, 6, 7, 8]
        ⟨RelType.R_LARCH_ADD16, 0, 0, 0⟩).fst
      ⟨RelType.R_LARCH_SUB16, 0, 0, 0⟩).fst = [1, 2, 3, 4, 5, 6, 7, 8] := by
  refine ⟨by decide, by decide, ?_⟩
  exact (addsub_inverse ctx0 0 [symW] [1, 2, 3, 4, 5, 6, 7, 8] 0 0 0
    (by decide)).2.1 (by decide)

end Mold
